import Mathlib

/-!
Verification of the dependency-injection / callback-dispatch core of the
`pufferfish` game framework (`src/app.rs` and `src/util.rs`).

The embedding models:
  * `ArgDesc` — per-parameter descriptor (`tid`/`tname`/`unique`), as produced
    by the `Argable` impls for `&T` (shared) and `&mut T` (exclusive);
  * `TypeMap` — the heterogeneous store keyed by type identity.  Type
    identities are `Nat`, payloads an arbitrary type `V`.  Since the Rust
    code manually boxes values and frees them with `drop(Box::from_raw(..))`,
    `TypeMap.insert` additionally returns the list of values released by the
    operation, and `TypeMap.dropAll` returns the values released by the
    `Drop` impl, so that release counting is observable;
  * `assert_legal` — the nested `enumerate` loops of
    `Callback::assert_legal` generated by `impl_callback!`, including the
    exact panic-message strings;
  * `Callback.call` / `DerivCallback.call` — argument extraction
    (`Argable::get`, which is `TypeMap::get(...).unwrap()`, i.e. a panic when
    the type is absent, modelled as `Option.none`) followed by the user
    function.  The net effect of a frame/init callback body on the store is
    an abstract function `TypeMap V → TypeMap V`; a state-derivation callback
    computes its result from the extracted argument values;
  * `App` — the builder: state map plus the two composed callback chains.
    Chains are composed exactly as `replace_with` does in the source: the new
    chain runs the old chain, then the new callback.  A panic during
    registration (`panic!` inside `assert_legal`) is modelled as
    `Except.error msg`; a panic during chain execution as `Option.none`;
  * `implArities` — the set of parameter counts for which the
    `impl_callback!(A, .., Z)` macro invocation generates a `Callback` impl.
-/

namespace Pufferfish

set_option maxRecDepth 8192

/-- Per-parameter dependency descriptor, mirroring `ArgDesc` in `app.rs`:
type identity `tid`, display name `tname`, and `unique` (true for `&mut T`,
false for `&T`). -/
structure ArgDesc where
  tid : Nat
  tname : String
  unique : Bool
deriving DecidableEq

/-- Rendering of a full parameter list as used inside the panic messages of
`assert_legal`: the source flat-maps each descriptor to
`[", ", "&mut "/"&", tname]`, skips the first element and concatenates. -/
def renderSig (args : List ArgDesc) : String :=
  String.join (((args.map (fun e => [", ", if e.unique then "&mut " else "&", e.tname])).flatten).drop 1)

/-- Panic message of `assert_legal` when two parameters are both unique
references to the same type. -/
def msgUnique (args : List ArgDesc) (a : ArgDesc) : String :=
  "illegal callback signature (" ++ renderSig args ++ "): multiple unique references to " ++ a.tname

/-- Panic message of `assert_legal` when two parameters reference the same
type and exactly one of them is unique. -/
def msgMixed (args : List ArgDesc) (a : ArgDesc) : String :=
  "illegal callback signature (" ++ renderSig args ++ "): both unique and shared references to " ++ a.tname

/-- Body of the nested loops of `assert_legal` for one index pair `(i, j)`:
`some msg` when the source would panic with message `msg`, `none` when it
would continue. -/
def pairCheck (args : List ArgDesc) (i : Nat) (a : ArgDesc) (j : Nat) (b : ArgDesc) : Option String :=
  if i ≠ j ∧ a.tid = b.tid then
    if a.unique && b.unique then some (msgUnique args a)
    else if a.unique || b.unique then some (msgMixed args a)
    else none
  else none

/-- The legality check `Callback::assert_legal` generated by
`impl_callback!`: iterate over all pairs of positions in declaration order
and panic at the first offending pair.  `none` means the signature is legal,
`some msg` means the source panics with message `msg`. -/
def assert_legal (args : List ArgDesc) : Option String :=
  args.enum.findSome? fun ia =>
    args.enum.findSome? fun jb =>
      pairCheck args ia.1 ia.2 jb.1 jb.2

/-- The heterogeneous store `TypeMap` of `app.rs`, modelled as an association
list from type identity to the stored payload (the `HashMap<TypeId,
NonNull<dyn Any>>` of the source). -/
structure TypeMap (V : Type) where
  inner : List (Nat × V)

/-- Lookup underlying `TypeMap::get` / `TypeMap::get_mut` (both perform the
same `HashMap` lookup and downcast; they differ only in the mutability of the
returned borrow). -/
def TypeMap.get {V : Type} (m : TypeMap V) (tid : Nat) : Option V :=
  (m.inner.find? fun p => p.1 == tid).map fun p => p.2

/-- Removal of the entry with the given type identity (`HashMap::remove`). -/
def TypeMap.remove {V : Type} (m : TypeMap V) (tid : Nat) : TypeMap V :=
  ⟨m.inner.filter fun p => p.1 != tid⟩

/-- Model of `TypeMap::insert`: remove and release any previous value stored
under the same type identity, then store the new value.  The first component
is the updated map; the second is the list of values released (boxes dropped)
by this operation, so that release counting is observable. -/
def TypeMap.insert {V : Type} (m : TypeMap V) (tid : Nat) (v : V) : TypeMap V × List V :=
  (⟨(tid, v) :: (m.remove tid).inner⟩,
   match m.get tid with
   | some old => [old]
   | none => [])

/-- Values released by the `Drop` impl of `TypeMap`, which drains the map and
drops every remaining box exactly once. -/
def TypeMap.dropAll {V : Type} (m : TypeMap V) : List V :=
  m.inner.map fun p => p.2

/-- Argument extraction for a parameter list: each `Argable::get` looks up
the parameter's type identity and unwraps (`.unwrap()` — a panic, modelled as
`none`, when the type was never inserted). -/
def extractArgs {V : Type} (m : TypeMap V) : List ArgDesc → Option (List V)
  | [] => some []
  | d :: ds => (m.get d.tid).bind fun v => (extractArgs m ds).map fun vs => v :: vs

/-- A frame/init callback: its parameter descriptors and the net effect of
the user function body on the store (the function mutates store entries only
through the references extracted for it). -/
structure Callback (V : Type) where
  descs : List ArgDesc
  run : TypeMap V → TypeMap V

/-- Model of `Callback::call` for `()`-returning callbacks: extract every
declared argument (panicking — `none` — if one is missing), then run the user
function. -/
def Callback.call {V : Type} (cb : Callback V) (m : TypeMap V) : Option (TypeMap V) :=
  (extractArgs m cb.descs).map fun _ => cb.run m

/-- A state-derivation callback (registered through `add_state_with`): its
parameter descriptors, the type identity of its return type, and the user
function computing the derived value from the extracted argument values. -/
structure DerivCallback (V : Type) where
  descs : List ArgDesc
  tid : Nat
  run : List V → V

/-- Model of `Callback::call` for a value-returning callback: extract every
declared argument, then compute the returned value. -/
def DerivCallback.call {V : Type} (cb : DerivCallback V) (m : TypeMap V) : Option V :=
  (extractArgs m cb.descs).map cb.run

/-- The `App` builder of `app.rs`, restricted to the dispatch core: the state
map and the two composed callback chains.  The chains are single composed
functions exactly as in the source (`Box<dyn Fn(&mut TypeMap)>`); a panic
while running a chain is `none`.  Window-configuration fields (title, size,
vsync, resizable) carry no dispatch logic and are omitted. -/
structure App (V : Type) where
  state : TypeMap V
  frame_callbacks : TypeMap V → Option (TypeMap V)
  init_callbacks : TypeMap V → Option (TypeMap V)

/-- Model of `App::new` / `Default`: empty state, and both chains are the
no-op closure `Box::new(|_| {})`. -/
def App.new (V : Type) : App V :=
  ⟨⟨[]⟩, some, some⟩

/-- Model of `App::add_state`: insert the value into the state map. -/
def App.add_state {V : Type} (app : App V) (tid : Nat) (v : V) : App V :=
  { app with state := (app.state.insert tid v).1 }

/-- Model of `App::add_frame_callback`: run `assert_legal` (a panic becomes
`Except.error`), then compose: the new chain runs the old chain, then the new
callback, exactly as the `replace_with` closure in the source. -/
def App.add_frame_callback {V : Type} (app : App V) (cb : Callback V) : Except String (App V) :=
  match assert_legal cb.descs with
  | some msg => Except.error msg
  | none =>
    Except.ok { app with frame_callbacks := fun args => (app.frame_callbacks args).bind cb.call }

/-- Model of `App::add_init_callback`: identical to `add_frame_callback` but
on the init chain. -/
def App.add_init_callback {V : Type} (app : App V) (cb : Callback V) : Except String (App V) :=
  match assert_legal cb.descs with
  | some msg => Except.error msg
  | none =>
    Except.ok { app with init_callbacks := fun args => (app.init_callbacks args).bind cb.call }

/-- Model of `App::add_state_with`: run `assert_legal`, then compose onto the
init chain the closure that runs the old chain, calls the callback, and
inserts its returned value into the store. -/
def App.add_state_with {V : Type} (app : App V) (cb : DerivCallback V) : Except String (App V) :=
  match assert_legal cb.descs with
  | some msg => Except.error msg
  | none =>
    Except.ok { app with init_callbacks := fun args =>
      (app.init_callbacks args).bind (fun m =>
        (cb.call m).map fun v => (m.insert cb.tid v).1) }

/-- Model of the setup phase of `App::init`: run the composed init chain once
on the state map.  (The engine-resource insertions that precede it in the
source only seed further store entries and carry no dispatch logic.) -/
def App.runSetup {V : Type} (app : App V) : Option (TypeMap V) :=
  app.init_callbacks app.state

/-- N ticks of the event loop in `app/sdl.rs`: each loop iteration applies
the composed frame chain once to the state map. -/
def runTicks {V : Type} (f : TypeMap V → Option (TypeMap V)) : Nat → TypeMap V → Option (TypeMap V)
  | 0, m => some m
  | n + 1, m => (f m).bind (runTicks f n)

/-- Registration of a whole list of frame callbacks in order (iterated
`add_frame_callback` builder calls). -/
def addFrames {V : Type} (app : App V) (cbs : List (Callback V)) : Except String (App V) :=
  cbs.foldlM App.add_frame_callback app

/-- Registration of a whole list of init callbacks in order (iterated
`add_init_callback` builder calls). -/
def addInits {V : Type} (app : App V) (cbs : List (Callback V)) : Except String (App V) :=
  cbs.foldlM App.add_init_callback app

/-- Denotation of running a list of callbacks in order against a store,
propagating panics: the intended meaning of a composed chain. -/
def runSeq {V : Type} (cbs : List (Callback V)) (m : TypeMap V) : Option (TypeMap V) :=
  cbs.foldlM (fun m cb => Callback.call cb m) m

/-- Whether a registration call returned normally (`Except.ok`) rather than
panicking (`Except.error`). -/
def regOk {V : Type} : Except String (App V) → Bool
  | Except.ok _ => true
  | Except.error _ => false

/-- Arities for which an invocation of the `impl_callback!` macro with `n`
identifiers generates `Callback` impls: each invocation generates the impl
for all of its identifiers and recurses after dropping the first one, so `n`
identifiers yield arities `n, n-1, .., 1`. -/
def implArities : Nat → List Nat
  | 0 => []
  | n + 1 => (n + 1) :: implArities n

/-- Whether the crate provides a `Callback` impl for functions of `n`
parameters: the only invocation is `impl_callback!(A, B, .., Z)` with 26
identifiers. -/
def hasCallbackImpl (n : Nat) : Bool :=
  decide (n ∈ implArities 26)

/-- Whether a function with the given parameter list can be registered
through `add_state_with` / `add_init_callback` / `add_frame_callback`: the
trait bound `F: Callback<Args, _>` must be satisfied (an impl of the matching
arity must exist) and `assert_legal` must not panic. -/
def registrable (descs : List ArgDesc) : Bool :=
  hasCallbackImpl descs.length && (assert_legal descs).isNone

/-- Rendering of one parameter in the panic message of the source:
`&TypeName` for shared, `&mut TypeName` for exclusive. -/
def renderDesc (d : ArgDesc) : String :=
  (if d.unique then "&mut " else "&") ++ d.tname

/-- Modelled from the spec (§4.2): the rendering of one parameter that the
specification claims appears in the failure message — `shared TypeName` or
`exclusive TypeName`.  Kept separate from `renderDesc` (the rendering the
source actually uses) so the two can be compared. -/
def specRender (d : ArgDesc) : String :=
  (if d.unique then "exclusive " else "shared ") ++ d.tname

/-- Decidable substring test used to compare message renderings. -/
def strContains (s pat : String) : Bool :=
  decide (pat.data <:+: s.data)

/-- Modelled from the spec (§4.2, §8): the property the specification asserts
of a signature — some pair of distinct positions shares a type identity with
at least one side exclusive. -/
def ExistsAliasingPair (args : List ArgDesc) : Prop :=
  ∃ (i j : Nat) (a b : ArgDesc),
    i ≠ j ∧ args[i]? = some a ∧ args[j]? = some b ∧ a.tid = b.tid ∧ (a.unique ∨ b.unique)

theorem pairCheck_isSome_iff (args : List ArgDesc) (i : Nat) (a : ArgDesc) (j : Nat) (b : ArgDesc) :
    (pairCheck args i a j b).isSome = true ↔
      (i ≠ j ∧ a.tid = b.tid ∧ (a.unique = true ∨ b.unique = true)) := by
  unfold pairCheck
  split_ifs with h1 h2 h3
  · simp only [Option.isSome_some, true_iff]
    rw [Bool.and_eq_true] at h2
    exact ⟨h1.1, h1.2, Or.inl h2.1⟩
  · simp only [Option.isSome_some, true_iff]
    rw [Bool.or_eq_true] at h3
    exact ⟨h1.1, h1.2, h3⟩
  · simp only [Option.isSome_none, Bool.false_eq_true, false_iff]
    rintro ⟨-, -, h⟩
    rw [Bool.and_eq_true] at h2
    rw [Bool.or_eq_true] at h3
    exact h3 h
  · simp only [Option.isSome_none, Bool.false_eq_true, false_iff]
    rintro ⟨hij, htid, -⟩
    exact h1 ⟨hij, htid⟩

theorem assert_legal_isSome_iff (args : List ArgDesc) :
    (assert_legal args).isSome = true ↔ ExistsAliasingPair args := by
  unfold assert_legal ExistsAliasingPair
  rw [List.findSome?_isSome_iff]
  constructor
  · rintro ⟨⟨i, a⟩, hmem, h⟩
    rw [List.findSome?_isSome_iff] at h
    obtain ⟨⟨j, b⟩, hmem2, h2⟩ := h
    rw [List.mk_mem_enum_iff_getElem?] at hmem hmem2
    rw [pairCheck_isSome_iff] at h2
    exact ⟨i, j, a, b, h2.1, hmem, hmem2, h2.2.1, h2.2.2⟩
  · rintro ⟨i, j, a, b, hij, hi, hj, htid, huni⟩
    refine ⟨(i, a), ?_, ?_⟩
    · rw [List.mk_mem_enum_iff_getElem?]
      exact hi
    · rw [List.findSome?_isSome_iff]
      refine ⟨(j, b), ?_, ?_⟩
      · rw [List.mk_mem_enum_iff_getElem?]
        exact hj
      · rw [pairCheck_isSome_iff]
        exact ⟨hij, htid, huni⟩

theorem assert_legal_eq_none_iff (args : List ArgDesc) :
    assert_legal args = none ↔ ¬ ExistsAliasingPair args := by
  rw [← assert_legal_isSome_iff]
  cases h : assert_legal args <;> simp [h]

theorem add_frame_callback_regOk (app : App Nat) (cb : Callback Nat) :
    regOk (app.add_frame_callback cb) = true ↔ assert_legal cb.descs = none := by
  unfold App.add_frame_callback
  cases h : assert_legal cb.descs <;> simp [regOk]

theorem TypeMap.get_insert_self {V : Type} (m : TypeMap V) (tid : Nat) (v : V) :
    ((m.insert tid v).1).get tid = some v := by
  simp [TypeMap.insert, TypeMap.get, List.find?]

theorem TypeMap.insert_insert_dropped {V : Type} (m : TypeMap V) (tid : Nat) (v w : V) :
    (((m.insert tid v).1).insert tid w).2 = [v] := by
  show (match ((m.insert tid v).1).get tid with
    | some old => [old]
    | none => []) = [v]
  rw [TypeMap.get_insert_self]

/-- C1: registration of a callback fails with the IllegalSignature panic if
and only if the parameter list has two distinct positions of the same type
identity with at least one exclusive; every signature whose repeated types
are all shared passes `assert_legal` and the registration call succeeds. -/
theorem signature_legality_characterization (args : List ArgDesc) :
    ((assert_legal args).isSome = true ↔ ExistsAliasingPair args) ∧
    (assert_legal args = none ↔ ¬ ExistsAliasingPair args) ∧
    (∀ (app : App Nat) (cb : Callback Nat),
      regOk (app.add_frame_callback cb) = true ↔ assert_legal cb.descs = none) := by
  exact ⟨assert_legal_isSome_iff args, assert_legal_eq_none_iff args,
    fun app cb => add_frame_callback_regOk app cb⟩

/-- C3: inserting `v` under a type identity and reading that identity back
returns `v`; inserting a second value `w` afterwards makes reads return `w`
and releases the first value exactly once; across the whole lifetime
(both inserts plus the teardown of the store) the released values are
exactly `[v, w]` — no leak, no double release. -/
theorem store_round_trip (V : Type) (tid : Nat) (v w : V) (m : TypeMap V) :
    TypeMap.get ((m.insert tid v).1) tid = some v ∧
    TypeMap.get ((((m.insert tid v).1).insert tid w).1) tid = some w ∧
    (((m.insert tid v).1).insert tid w).2 = [v] ∧
    ((⟨[]⟩ : TypeMap V).insert tid v).2 ++
        ((((⟨[]⟩ : TypeMap V).insert tid v).1).insert tid w).2 ++
        TypeMap.dropAll (((((⟨[]⟩ : TypeMap V).insert tid v).1).insert tid w).1) = [v, w] := by
  refine ⟨TypeMap.get_insert_self m tid v, TypeMap.get_insert_self _ tid w,
    TypeMap.insert_insert_dropped m tid v w, ?_⟩
  simp [TypeMap.insert, TypeMap.get, TypeMap.remove, TypeMap.dropAll, List.find?, List.filter]

theorem extractArgs_eq_none {V : Type} (m : TypeMap V) (descs : List ArgDesc) (d : ArgDesc)
    (hmem : d ∈ descs) (hget : m.get d.tid = none) : extractArgs m descs = none := by
  induction descs with
  | nil => cases hmem
  | cons a ds ih =>
    rcases List.mem_cons.mp hmem with h | h
    · subst h
      simp [extractArgs, hget]
    · cases hga : m.get a.tid <;> simp [extractArgs, hga, ih h]

/-- C6: when a type identity was never inserted into the store, invoking a
callback that declares a parameter of that type fails fatally during
argument extraction (the `.unwrap()` inside `Argable::get` panics) instead of
returning a value — for `()`-returning and value-returning callbacks alike. -/
theorem missing_type_fatal (V : Type) (m : TypeMap V) (cb : Callback V) (dcb : DerivCallback V)
    (d : ArgDesc) (hmem : d ∈ cb.descs) (hget : TypeMap.get m d.tid = none)
    (hdescs : dcb.descs = cb.descs) :
    extractArgs m cb.descs = none ∧ Callback.call cb m = none ∧ DerivCallback.call dcb m = none := by
  have h := extractArgs_eq_none m cb.descs d hmem hget
  exact ⟨h, by simp [Callback.call, h], by simp [DerivCallback.call, hdescs, h]⟩

/-- Store holding a single unrelated entry, used to witness the MissingType
behavior. -/
def c6Map : TypeMap Nat := ⟨[(0, 7)]⟩

/-- Descriptor of a parameter whose type was never inserted. -/
def c6Desc : ArgDesc := ⟨5, "Missing", false⟩

/-- Frame callback declaring the never-inserted type. -/
def c6Cb : Callback Nat := ⟨[c6Desc], id⟩

/-- State-derivation callback declaring the never-inserted type. -/
def c6Dcb : DerivCallback Nat := ⟨[c6Desc], 9, fun _ => 0⟩

theorem missing_type_fatal_witness :
    extractArgs c6Map c6Cb.descs = none ∧ Callback.call c6Cb c6Map = none ∧
      DerivCallback.call c6Dcb c6Map = none :=
  missing_type_fatal Nat c6Map c6Cb c6Dcb c6Desc (by decide) (by decide) (by decide)

theorem mem_implArities (k n : Nat) : n ∈ implArities k ↔ 1 ≤ n ∧ n ≤ k := by
  induction k with
  | zero =>
    simp only [implArities, List.not_mem_nil, false_iff]
    omega
  | succ k ih =>
    simp only [implArities, List.mem_cons, ih]
    omega

/-- C10: the `impl_callback!(A, .., Z)` invocation provides a `Callback`
implementation exactly for parameter counts 1 through 26; in particular a
zero-parameter function or a 27-parameter function has none and cannot be
registered. -/
theorem callback_arity_bound (n : Nat) :
    (hasCallbackImpl n = true ↔ 1 ≤ n ∧ n ≤ 26) ∧
    hasCallbackImpl 0 = false ∧ hasCallbackImpl 27 = false := by
  refine ⟨?_, by decide, by decide⟩
  rw [hasCallbackImpl]
  exact (decide_eq_true_iff).trans (mem_implArities 26 n)

/-- C9 counterexample: a zero-parameter callback cannot be registered at all
— the trait bound of the registration functions is unsatisfiable because no
zero-arity `Callback` impl is generated — even though its (empty) parameter
list passes the pair check. -/
theorem zero_param_registration_counterexample :
    registrable [] = false ∧ assert_legal ([] : List ArgDesc) = none := by
  exact ⟨by decide, rfl⟩

/-- C9 amended: an empty parameter list passes the legality check trivially
(no pairs) and extraction of zero parameters yields no arguments, but the
`Callback` interface is implemented only for arities 1..26, so a
zero-parameter function cannot actually be registered. -/
theorem zero_param_trivially_legal_but_unregistrable :
    assert_legal ([] : List ArgDesc) = none ∧
    (∀ (V : Type) (m : TypeMap V), extractArgs m [] = some []) ∧
    hasCallbackImpl 0 = false ∧ registrable [] = false := by
  exact ⟨rfl, fun V m => rfl, by decide, by decide⟩

/-- C5: when a callback's signature is illegal, every registration surface
fails during the registration call itself with the panic message, before the
callback is composed into any chain: no `Except.ok` application ever results,
so the illegal callback is never part of a chain and is never invoked. -/
theorem illegal_registration_atomic (V : Type) (app : App V) (cb : Callback V)
    (dcb : DerivCallback V) (msg : String)
    (h : assert_legal cb.descs = some msg) (hdescs : dcb.descs = cb.descs) :
    app.add_frame_callback cb = Except.error msg ∧
    app.add_init_callback cb = Except.error msg ∧
    app.add_state_with dcb = Except.error msg ∧
    ∀ app' : App V, app.add_frame_callback cb ≠ Except.ok app' ∧
      app.add_init_callback cb ≠ Except.ok app' ∧ app.add_state_with dcb ≠ Except.ok app' := by
  have h2 : assert_legal dcb.descs = some msg := by
    rw [hdescs]
    exact h
  refine ⟨?_, ?_, ?_, fun app' => ⟨?_, ?_, ?_⟩⟩ <;>
    simp [App.add_frame_callback, App.add_init_callback, App.add_state_with, h, h2]

/-- Descriptor of an exclusive `&mut Counter` parameter. -/
def counterDesc : ArgDesc := ⟨1, "Counter", true⟩

/-- Descriptor of a shared `&Counter` parameter. -/
def sharedCounterDesc : ArgDesc := ⟨1, "Counter", false⟩

/-- Frame callback declaring the single parameter `&mut Counter`. -/
def mutCounterCb : Callback Nat := ⟨[counterDesc], id⟩

/-- Frame callback declaring `(&mut Counter, &mut Counter)`. -/
def doubleMutCounterCb : Callback Nat := ⟨[counterDesc, counterDesc], id⟩

/-- State-derivation callback declaring `(&mut Counter, &mut Counter)`. -/
def doubleMutCounterDcb : DerivCallback Nat := ⟨[counterDesc, counterDesc], 2, fun _ => 0⟩

theorem illegal_registration_atomic_witness :
    (App.new Nat).add_frame_callback doubleMutCounterCb =
      Except.error "illegal callback signature (&mut Counter, &mut Counter): multiple unique references to Counter" ∧
    (App.new Nat).add_init_callback doubleMutCounterCb =
      Except.error "illegal callback signature (&mut Counter, &mut Counter): multiple unique references to Counter" ∧
    (App.new Nat).add_state_with doubleMutCounterDcb =
      Except.error "illegal callback signature (&mut Counter, &mut Counter): multiple unique references to Counter" ∧
    ∀ app' : App Nat,
      (App.new Nat).add_frame_callback doubleMutCounterCb ≠ Except.ok app' ∧
      (App.new Nat).add_init_callback doubleMutCounterCb ≠ Except.ok app' ∧
      (App.new Nat).add_state_with doubleMutCounterDcb ≠ Except.ok app' :=
  illegal_registration_atomic Nat (App.new Nat) doubleMutCounterCb doubleMutCounterDcb
    "illegal callback signature (&mut Counter, &mut Counter): multiple unique references to Counter"
    (by decide) (by decide)

/-- C7 counterexample: registering two separate frame callbacks, each
declaring the single exclusive parameter `&mut Counter`, does NOT panic — both
registration calls return normally, because `assert_legal` inspects pairs
within one signature only and a one-parameter signature has no pairs. -/
theorem scenario_b_no_panic :
    regOk ((App.new Nat).add_frame_callback mutCounterCb) = true ∧
    regOk (((App.new Nat).add_frame_callback mutCounterCb).bind
      (fun app => app.add_frame_callback mutCounterCb)) = true := by
  exact ⟨rfl, rfl⟩

/-- C7 amended: both registrations of single-parameter `&mut Counter` frame
callbacks succeed, since the legality check is per-signature; only a single
callback whose own signature repeats the exclusive type — e.g.
`(&mut Counter, &mut Counter)` — panics, citing `Counter` and listing the
parameters as `&mut Counter, &mut Counter`. -/
theorem scenario_b_amended :
    regOk (((App.new Nat).add_frame_callback mutCounterCb).bind
      (fun app => app.add_frame_callback mutCounterCb)) = true ∧
    assert_legal [counterDesc, counterDesc] =
      some "illegal callback signature (&mut Counter, &mut Counter): multiple unique references to Counter" := by
  exact ⟨rfl, by decide⟩

/-- C8 counterexample: the failure message for the illegal signature
`(&Counter, &mut Counter)` renders the parameters as `&Counter` and
`&mut Counter` — the renderings `shared Counter` / `exclusive Counter`
claimed by the specification occur nowhere in the message. -/
theorem diagnostic_rendering_counterexample :
    assert_legal [sharedCounterDesc, counterDesc] =
      some "illegal callback signature (&Counter, &mut Counter): both unique and shared references to Counter" ∧
    strContains
      "illegal callback signature (&Counter, &mut Counter): both unique and shared references to Counter"
      (specRender sharedCounterDesc) = false ∧
    strContains
      "illegal callback signature (&Counter, &mut Counter): both unique and shared references to Counter"
      (specRender counterDesc) = false := by
  exact ⟨by decide, by decide, by decide⟩

/-- C8 amended: every registration failure message is one of the two panic
messages built from an offending pair: it embeds the rendering of the full
parameter list (each parameter as `&TypeName` or `&mut TypeName`, not
`shared TypeName` / `exclusive TypeName`) and names the conflicting type. -/
theorem diagnostic_message_shape (args : List ArgDesc) (msg : String)
    (h : assert_legal args = some msg) :
    ∃ a b : ArgDesc, a ∈ args ∧ b ∈ args ∧ a.tid = b.tid ∧
      (a.unique = true ∨ b.unique = true) ∧
      (msg = msgUnique args a ∨ msg = msgMixed args a) := by
  obtain ⟨⟨i, a⟩, hmem, h1⟩ := List.exists_of_findSome?_eq_some h
  obtain ⟨⟨j, b⟩, hmem2, h2⟩ := List.exists_of_findSome?_eq_some h1
  rw [List.mk_mem_enum_iff_getElem?] at hmem hmem2
  have hma : a ∈ args := List.getElem?_mem hmem
  have hmb : b ∈ args := List.getElem?_mem hmem2
  unfold pairCheck at h2
  split_ifs at h2 with h3 h4 h5
  · rw [Bool.and_eq_true] at h4
    exact ⟨a, b, hma, hmb, h3.2, Or.inl h4.1, Or.inl (Option.some.inj h2).symm⟩
  · rw [Bool.or_eq_true] at h5
    exact ⟨a, b, hma, hmb, h3.2, h5, Or.inr (Option.some.inj h2).symm⟩

theorem diagnostic_message_shape_witness :
    ∃ a b : ArgDesc, a ∈ [sharedCounterDesc, counterDesc] ∧
      b ∈ [sharedCounterDesc, counterDesc] ∧ a.tid = b.tid ∧
      (a.unique = true ∨ b.unique = true) ∧
      (("illegal callback signature (&Counter, &mut Counter): both unique and shared references to Counter" : String) =
          msgUnique [sharedCounterDesc, counterDesc] a ∨
        ("illegal callback signature (&Counter, &mut Counter): both unique and shared references to Counter" : String) =
          msgMixed [sharedCounterDesc, counterDesc] a) :=
  diagnostic_message_shape [sharedCounterDesc, counterDesc]
    "illegal callback signature (&Counter, &mut Counter): both unique and shared references to Counter"
    (by decide)

theorem addFrames_ok {V : Type} (cbs : List (Callback V)) (app : App V)
    (h : ∀ cb ∈ cbs, assert_legal cb.descs = none) :
    ∃ app', addFrames app cbs = Except.ok app' ∧ app'.state = app.state ∧
      app'.init_callbacks = app.init_callbacks ∧
      ∀ a, app'.frame_callbacks a = (app.frame_callbacks a).bind (runSeq cbs) := by
  induction cbs generalizing app with
  | nil =>
    refine ⟨app, rfl, rfl, rfl, fun a => ?_⟩
    cases app.frame_callbacks a <;> rfl
  | cons c cs ih =>
    have hc : assert_legal c.descs = none := h c (List.mem_cons_self c cs)
    obtain ⟨app', h1, h2, h3, h4⟩ :=
      ih { app with frame_callbacks := fun a => (app.frame_callbacks a).bind c.call }
        (fun cb hcb => h cb (List.mem_cons_of_mem c hcb))
    refine ⟨app', ?_, h2, h3, fun a => ?_⟩
    · rw [addFrames, List.foldlM_cons]
      have hstep : App.add_frame_callback app c = Except.ok
          { app with frame_callbacks := fun a => (app.frame_callbacks a).bind c.call } := by
        rw [App.add_frame_callback, hc]
      rw [hstep]
      exact h1
    · rw [h4]
      have hseq : ∀ m, runSeq (c :: cs) m = (Callback.call c m).bind (runSeq cs) := by
        intro m
        rw [runSeq, List.foldlM_cons]
        rfl
      show ((app.frame_callbacks a).bind c.call).bind (runSeq cs) =
        (app.frame_callbacks a).bind (runSeq (c :: cs))
      rw [Option.bind_assoc]
      simp only [hseq]

theorem addInits_ok {V : Type} (cbs : List (Callback V)) (app : App V)
    (h : ∀ cb ∈ cbs, assert_legal cb.descs = none) :
    ∃ app', addInits app cbs = Except.ok app' ∧ app'.state = app.state ∧
      app'.frame_callbacks = app.frame_callbacks ∧
      ∀ a, app'.init_callbacks a = (app.init_callbacks a).bind (runSeq cbs) := by
  induction cbs generalizing app with
  | nil =>
    refine ⟨app, rfl, rfl, rfl, fun a => ?_⟩
    cases app.init_callbacks a <;> rfl
  | cons c cs ih =>
    have hc : assert_legal c.descs = none := h c (List.mem_cons_self c cs)
    obtain ⟨app', h1, h2, h3, h4⟩ :=
      ih { app with init_callbacks := fun a => (app.init_callbacks a).bind c.call }
        (fun cb hcb => h cb (List.mem_cons_of_mem c hcb))
    refine ⟨app', ?_, h2, h3, fun a => ?_⟩
    · rw [addInits, List.foldlM_cons]
      have hstep : App.add_init_callback app c = Except.ok
          { app with init_callbacks := fun a => (app.init_callbacks a).bind c.call } := by
        rw [App.add_init_callback, hc]
      rw [hstep]
      exact h1
    · rw [h4]
      have hseq : ∀ m, runSeq (c :: cs) m = (Callback.call c m).bind (runSeq cs) := by
        intro m
        rw [runSeq, List.foldlM_cons]
        rfl
      show ((app.init_callbacks a).bind c.call).bind (runSeq cs) =
        (app.init_callbacks a).bind (runSeq (c :: cs))
      rw [Option.bind_assoc]
      simp only [hseq]

/-- Descriptor of the `&mut Log` parameter of the instrumentation callbacks
used to observe execution order (the event-log pattern of Scenario A of the
spec: a callback that pushes its own identifier into a log stored in the
store). -/
def logDesc : ArgDesc := ⟨0, "Log", true⟩

/-- Instrumentation callback number `i`: declares `&mut Log` and appends `i`
to the log value stored under type identity 0. -/
def logCb (i : Nat) : Callback (List Nat) :=
  ⟨[logDesc], fun m => (m.insert 0 (((m.get 0).getD []) ++ [i])).1⟩

/-- App with an empty log registered as state, the starting point of the
ordering scenarios. -/
def logApp : App (List Nat) :=
  (App.new (List Nat)).add_state 0 []

theorem logCb_call (i : Nat) (m : TypeMap (List Nat)) (l : List Nat)
    (h : TypeMap.get m 0 = some l) :
    Callback.call (logCb i) m = some ((m.insert 0 (l ++ [i])).1) := by
  simp [Callback.call, logCb, logDesc, extractArgs, h]

theorem runSeq_log (ids : List Nat) :
    ∀ (m : TypeMap (List Nat)) (l : List Nat), TypeMap.get m 0 = some l →
      ∃ m', runSeq (ids.map logCb) m = some m' ∧ TypeMap.get m' 0 = some (l ++ ids) := by
  induction ids with
  | nil =>
    intro m l h
    exact ⟨m, rfl, by simpa using h⟩
  | cons i ids ih =>
    intro m l h
    have hc := logCb_call i m l h
    obtain ⟨m', h1, h2⟩ := ih ((m.insert 0 (l ++ [i])).1) (l ++ [i])
      (TypeMap.get_insert_self m 0 (l ++ [i]))
    refine ⟨m', ?_, by simpa [List.append_assoc] using h2⟩
    show runSeq (logCb i :: ids.map logCb) m = some m'
    rw [runSeq, List.foldlM_cons, hc]
    exact h1

theorem runTicks_log (ids : List Nat) (g : TypeMap (List Nat) → Option (TypeMap (List Nat)))
    (hg : ∀ (m : TypeMap (List Nat)) (l : List Nat), TypeMap.get m 0 = some l →
      ∃ m', g m = some m' ∧ TypeMap.get m' 0 = some (l ++ ids)) :
    ∀ (N : Nat) (m : TypeMap (List Nat)) (l : List Nat), TypeMap.get m 0 = some l →
      ∃ m', runTicks g N m = some m' ∧
        TypeMap.get m' 0 = some (l ++ (List.replicate N ids).flatten) := by
  intro N
  induction N with
  | zero =>
    intro m l h
    exact ⟨m, rfl, by simpa using h⟩
  | succ N ih =>
    intro m l h
    obtain ⟨m1, h1, hg1⟩ := hg m l h
    obtain ⟨m', h2, h3⟩ := ih m1 (l ++ ids) hg1
    refine ⟨m', ?_, by simpa [List.replicate_succ, List.append_assoc] using h3⟩
    rw [runTicks, h1]
    exact h2

theorem count_flatten_replicate (N : Nat) (ids : List Nat) (i : Nat) :
    ((List.replicate N ids).flatten).count i = N * ids.count i := by
  induction N with
  | zero => simp
  | succ N ih =>
    rw [List.replicate_succ, List.flatten_cons, List.count_append, ih, Nat.succ_mul]
    omega

/-- C2: frame callbacks registered in order `c1, .., cn` (here: logging
callbacks labelled by `ids`) execute in registration order, each exactly once
per invocation of the composed chain; over `N` ticks the log is the cyclic
sequence `ids, ids, ..` (`N` copies), so each callback runs exactly `N` times;
and the same registration-order-exactly-once property holds for the setup
chain, which logs `ids` exactly once. -/
theorem chain_ordering_cyclic (ids : List Nat) (N : Nat) :
    ∃ (app' : App (List Nat)) (m : TypeMap (List Nat)),
      addFrames logApp (ids.map logCb) = Except.ok app' ∧
      runTicks app'.frame_callbacks N app'.state = some m ∧
      TypeMap.get m 0 = some ((List.replicate N ids).flatten) ∧
      (∀ i : Nat, ((List.replicate N ids).flatten).count i = N * ids.count i) ∧
      ∃ (app2 : App (List Nat)) (m2 : TypeMap (List Nat)),
        addInits logApp (ids.map logCb) = Except.ok app2 ∧
        App.runSetup app2 = some m2 ∧ TypeMap.get m2 0 = some ids := by
  have hleg : ∀ cb ∈ ids.map logCb, assert_legal cb.descs = none := by
    intro cb hcb
    obtain ⟨i, -, rfl⟩ := List.mem_map.mp hcb
    rfl
  obtain ⟨app', hreg, hstate, -, hframe⟩ := addFrames_ok (ids.map logCb) logApp hleg
  have hg : ∀ (m : TypeMap (List Nat)) (l : List Nat), TypeMap.get m 0 = some l →
      ∃ m', app'.frame_callbacks m = some m' ∧ TypeMap.get m' 0 = some (l ++ ids) := by
    intro m l h
    obtain ⟨m', h1, h2⟩ := runSeq_log ids m l h
    refine ⟨m', ?_, h2⟩
    rw [hframe m]
    exact h1
  obtain ⟨m, hticks, hlog⟩ := runTicks_log ids app'.frame_callbacks hg N logApp.state [] rfl
  refine ⟨app', m, hreg, ?_, by simpa using hlog, fun i => count_flatten_replicate N ids i, ?_⟩
  · rw [hstate]
    exact hticks
  · obtain ⟨app2, hreg2, hstate2, -, hinit⟩ := addInits_ok (ids.map logCb) logApp hleg
    obtain ⟨m2, h1, h2⟩ := runSeq_log ids logApp.state [] rfl
    refine ⟨app2, m2, hreg2, ?_, by simpa using h2⟩
    rw [App.runSetup, hstate2, hinit]
    exact h1

/-- C4: after a successful `add_state_with` registration the frame chain and
the state are untouched, and whenever the prior init chain produces store `m`
on which the derivation callback returns `v`, the new init chain produces
exactly `m` with `v` inserted under the callback's return type — so the value
is in the store immediately after the callback completes, a read of that type
returns it, and any init callback registered afterwards is invoked on the
store already containing it (frame callbacks run later still, on the final
setup store). -/
theorem state_derivation_visibility (V : Type) (app app' : App V) (cb : DerivCallback V)
    (h : app.add_state_with cb = Except.ok app') :
    app'.frame_callbacks = app.frame_callbacks ∧
    app'.state = app.state ∧
    ∀ (a m : TypeMap V) (v : V),
      app.init_callbacks a = some m → DerivCallback.call cb m = some v →
      app'.init_callbacks a = some ((m.insert cb.tid v).1) ∧
      TypeMap.get ((m.insert cb.tid v).1) cb.tid = some v ∧
      ∀ (d : Callback V) (app2 : App V), app'.add_init_callback d = Except.ok app2 →
        app2.init_callbacks a = Callback.call d ((m.insert cb.tid v).1) := by
  rw [App.add_state_with] at h
  cases hl : assert_legal cb.descs with
  | some msg =>
    rw [hl] at h
    simp at h
  | none =>
    rw [hl] at h
    injection h with h'
    subst h'
    refine ⟨rfl, rfl, fun a m v h1 h2 => ?_⟩
    have hinit : (fun args => (app.init_callbacks args).bind fun mm =>
        (DerivCallback.call cb mm).map fun v => ((mm.insert cb.tid v).1)) a =
        some ((m.insert cb.tid v).1) := by
      show (app.init_callbacks a).bind _ = _
      rw [h1]
      show (DerivCallback.call cb m).map _ = _
      rw [h2]
      rfl
    refine ⟨hinit, TypeMap.get_insert_self m cb.tid v, fun d app2 hreg => ?_⟩
    rw [App.add_init_callback] at hreg
    cases hld : assert_legal d.descs with
    | some msg =>
      rw [hld] at hreg
      simp at hreg
    | none =>
      rw [hld] at hreg
      injection hreg with h'
      subst h'
      show ((fun args => (app.init_callbacks args).bind fun mm =>
        (DerivCallback.call cb mm).map fun v => ((mm.insert cb.tid v).1)) a).bind d.call = _
      rw [hinit]
      rfl

/-- Projection of a registration result, used to name the application
produced by a successful builder call. -/
def exceptApp {V : Type} (dflt : App V) : Except String (App V) → App V
  | Except.ok a => a
  | Except.error _ => dflt

/-- App holding the seed state `X = 5` under type identity 1. -/
def c4App : App Nat := (App.new Nat).add_state 1 5

/-- Derivation callback reading `&X` (type identity 1) and returning a `Y`
(type identity 2) computed from it. -/
def c4Dcb : DerivCallback Nat := ⟨[⟨1, "X", false⟩], 2, fun vs => vs.foldl (fun x y => x + y) 0 + 1⟩

theorem state_derivation_visibility_witness :
    (exceptApp (App.new Nat) (c4App.add_state_with c4Dcb)).init_callbacks c4App.state =
      some ((c4App.state.insert c4Dcb.tid 6).1) ∧
    TypeMap.get ((c4App.state.insert c4Dcb.tid 6).1) c4Dcb.tid = some 6 := by
  have h := state_derivation_visibility Nat c4App
    (exceptApp (App.new Nat) (c4App.add_state_with c4Dcb)) c4Dcb rfl
  exact ⟨(h.2.2 c4App.state c4App.state 6 rfl rfl).1,
    (h.2.2 c4App.state c4App.state 6 rfl rfl).2.1⟩

end Pufferfish
